import Mathlib

/-!
Verification of the import-specifier resolution core of YAB.

The development shallowly embeds `src/lib/appendJsExtension.ts` (functions
`findPackageDirectory`, `loadPackageDotJSON`, `shouldAppendJsExtension`),
`src/processFile.ts` (`isProcessable`) and the utility functions
`statOrUndefined` / `hasOwnProperty` from `src/lib/util.ts`.

Modelling conventions:

* Filesystem paths handed to the operating system are represented in the
  normalized segment form `NodePath` (absolute flag, list of path segments,
  trailing-slash flag).  The Node `path` library calls used by the code
  (`path.join`, `path.dirname`, `path.isAbsolute`, `path.relative`, posix
  flavour) are given as operations on this representation; `path.join`
  normalizes its textual result exactly as modelled by folding `normFold`
  over the specifier's `/`-separated parts.  Import specifiers themselves
  stay ordinary strings, because the code inspects and rewrites them
  textually.
* The world (`World`) supplies the outcome of every `fs.stat` call
  (`StatResult`: regular file, directory, ENOENT failure, or any other
  I/O failure) and of every `readFile` of a `package.json`
  (`ReadResult`).  Because the only consumer of the file's bytes is
  `JSON.parse`, a successfully read manifest is represented directly by
  its parse outcome: `okParse (some j)` for a text whose `JSON.parse`
  yields the JSON value `j`, and `okParse none` for a text on which
  `JSON.parse` throws.  In particular the file content `"null"` is
  represented by `okParse (some Json.null)` since `JSON.parse "null"`
  evaluates to `null`.
* JavaScript exceptions escaping a function are modelled with
  `Except JsErr`; an `await`ed rejection aborts the caller, which the
  embedding renders as explicit error propagation at each call site.
* String helpers (`strStartsWith`, `splitSlash`, ...) implement the
  JavaScript string methods used by the code (`startsWith`, `split('/')`,
  `endsWith`, `includes`, `indexOf`/`substring`, `length`) on the
  character lists underlying Lean strings.
-/

/-- A JavaScript exception escaping one of the embedded functions:
`typeError` models the `TypeError` thrown by
`Object.prototype.hasOwnProperty.call(null, ...)`, and `ioError` models a
non-ENOENT filesystem error rethrown by `statOrUndefined`. -/
inductive JsErr
  | typeError
  | ioError
deriving DecidableEq

/-- Kind reported by a successful `fs.stat`: the code only queries
`isFile()` and `isDirectory()`. -/
inductive StatKind
  | file
  | dir
deriving DecidableEq

/-- Outcome of `fs.stat` at one path: success on a regular file, success
on a directory, failure with code ENOENT, or failure with any other
code (permission denied, ENOTDIR, ...). -/
inductive StatResult
  | file
  | dir
  | enoent
  | otherErr
deriving DecidableEq

/-- JSON values as produced by `JSON.parse`. -/
inductive Json
  | null
  | bool (b : Bool)
  | num (n : Int)
  | str (s : String)
  | arr (elems : List Json)
  | obj (fields : List (String × Json))

/-- Outcome of `readFile` on a `package.json` path, the file content being
represented by its `JSON.parse` outcome (see the module docstring):
`okParse (some j)` - read succeeded and parsing yields `j`;
`okParse none` - read succeeded and `JSON.parse` throws;
`notFound` - read rejected with ENOENT;
`ioFail` - read rejected with any other error. -/
inductive ReadResult
  | okParse (parsed : Option Json)
  | notFound
  | ioFail

/-- Return value of `loadPackageDotJSON`, mirroring
`Record<string, unknown> | 'invalid' | undefined` in the source. -/
inductive PkgJsonResult
  | parsed (j : Json)
  | invalid
  | absent

/-- JavaScript `s.startsWith(t)`. -/
def strStartsWith (s t : String) : Bool := t.data.isPrefixOf s.data

/-- JavaScript `s.endsWith(t)`. -/
def strEndsWith (s t : String) : Bool := t.data.isSuffixOf s.data

/-- Helper for `splitSlash`: splits a character list at every occurrence
of `c`, `acc` holding the (reversed) characters of the current chunk. -/
def splitOnCharAux (c : Char) (acc : List Char) : List Char → List (List Char)
  | [] => [acc.reverse]
  | x :: xs =>
    if x = c then acc.reverse :: splitOnCharAux c [] xs
    else splitOnCharAux c (x :: acc) xs

/-- JavaScript `s.split('/')`. -/
def splitSlash (s : String) : List String :=
  (splitOnCharAux '/' [] s.data).map List.asString

/-- JavaScript `array.join(sep)`. -/
def joinWith (sep : String) : List String → String
  | [] => ""
  | [x] => x
  | x :: y :: xs => x ++ sep ++ joinWith sep (y :: xs)

/-- JavaScript `s.length` (character count; the sources only deal in
ASCII pathnames, where this coincides with UTF-16 length). -/
def strLength (s : String) : Nat := s.data.length

/-- JavaScript `s.substring(0, n)` for `n ≥ 0` (with `substring`'s
clamping of an overshooting end index). -/
def strTake (s : String) (n : Nat) : String := (s.data.take n).asString

/-- JavaScript `s.substring(n)` for `n ≥ 0`. -/
def strDrop (s : String) (n : Nat) : String := (s.data.drop n).asString

/-- Index of the first occurrence of `pat` in the scanned list, if any. -/
def firstIndexOfAux (pat : List Char) : List Char → Nat → Option Nat
  | [], i => if pat.isEmpty then some i else none
  | x :: xs, i =>
    if pat.isPrefixOf (x :: xs) then some i
    else firstIndexOfAux pat xs (i + 1)

/-- JavaScript `s.indexOf(pat)` (`none` standing for `-1`). -/
def strIndexOf (s pat : String) : Option Nat := firstIndexOfAux pat.data s.data 0

/-- JavaScript `s.includes(pat)`. -/
def strContainsSub (s pat : String) : Bool := (strIndexOf s pat).isSome

/-- JavaScript `s.substring(s.indexOf(pat))` (used with `pat = "src/"`
after an `includes` guard; when `pat` is absent `indexOf` is `-1` and
`substring(-1)` clamps to the whole string). -/
def strDropBefore (s pat : String) : String :=
  match strIndexOf s pat with
  | some i => strDrop s i
  | none => s

/-- The test `/^\w/.test(s)` from the source: does `s` start with an
ASCII word character (`[A-Za-z0-9_]`)? -/
def startsWithWordChar (s : String) : Bool :=
  match s.data with
  | [] => false
  | c :: _ => c.isAlphanum || c == '_'

/-- A filesystem path in normalized form: absolute flag, `/`-separated
segments (no `""` or `"."` segments; `".."` only as a leading run of a
relative path), and whether the textual form carries a trailing slash.
`⟨false, [], false⟩` renders as `"."`, `⟨true, [], _⟩` as `"/"`. -/
structure NodePath where
  isAbs : Bool
  segs : List String
  trailingSlash : Bool
deriving DecidableEq

/-- One step of Node's `path.normalize` segment processing, as performed
by `path.join`: empty and `"."` segments vanish, `".."` pops the last
segment (kept textually at the head of a relative path, dropped at the
root of an absolute one), anything else is appended. -/
def normFold (isAbs : Bool) (acc : List String) (seg : String) : List String :=
  if seg = "" ∨ seg = "." then acc
  else if seg = ".." then
    match acc.getLast? with
    | some prev => if prev = ".." then acc ++ [".."] else acc.dropLast
    | none => if isAbs then acc else [".."]
  else acc ++ [seg]

/-- Folds `normFold` over a list of raw segments, starting from the
already-normalized segments `init`. -/
def normSegs (isAbs : Bool) (init : List String) (parts : List String) : List String :=
  parts.foldl (normFold isAbs) init

/-- Reading a path string into the normalized representation; this is how
the operating system, and Node's normalizing path functions, interpret a
textual path. -/
def parsePath (s : String) : NodePath :=
  let isAbs := strStartsWith s "/"
  let segs := normSegs isAbs [] (splitSlash s)
  ⟨isAbs, segs, strEndsWith s "/" && !segs.isEmpty⟩

/-- Node `path.join(dir, spec)` on a normalized `dir` (posix). -/
def pathJoin (dir : NodePath) (spec : String) : NodePath :=
  let segs := normSegs dir.isAbs dir.segs (splitSlash spec)
  ⟨dir.isAbs, segs, strEndsWith spec "/" && !segs.isEmpty⟩

/-- Node `path.dirname` on a normalized path: drops the last segment;
the root `"/"` and the empty relative path `"."` are fixed points. -/
def pathDirname (p : NodePath) : NodePath := ⟨p.isAbs, p.segs.dropLast, false⟩

/-- Renders a normalized path back to its textual form. -/
def render (p : NodePath) : String :=
  if p.isAbs then "/" ++ joinWith "/" p.segs ++ (if p.trailingSlash then "/" else "")
  else if p.segs.isEmpty then "."
  else joinWith "/" p.segs ++ (if p.trailingSlash then "/" else "")

/-- Resolution of a possibly relative path against an absolute base, as
performed inside Node `path.relative` (which calls `path.resolve` on both
of its arguments with the process working directory as base). -/
def resolveAgainst (cwd : NodePath) (p : NodePath) : List String :=
  if p.isAbs then p.segs else normSegs true cwd.segs p.segs

/-- Length of the longest common segment prefix of two paths. -/
def commonPrefixLen : List String → List String → Nat
  | a :: as, b :: bs => if a = b then commonPrefixLen as bs + 1 else 0
  | _, _ => 0

/-- Node `path.relative(fromP, toP)` (posix), with `cwd` the process
working directory used to resolve relative arguments. -/
def pathRelative (cwd : NodePath) (fromP toP : NodePath) : String :=
  let f := resolveAgainst cwd fromP
  let t := resolveAgainst cwd toP
  let k := commonPrefixLen f t
  joinWith "/" (List.replicate (f.length - k) ".." ++ t.drop k)

/-- The filesystem (and process) state visible to one resolver run:
the outcome of `fs.stat` at every path, the outcome of reading every
`package.json`, and the working directory (used only by
`path.relative`). -/
structure World where
  stat : NodePath → StatResult
  readPkgFile : NodePath → ReadResult
  cwd : NodePath

/-- `statOrUndefined` from `src/lib/util.ts`: returns the stats on
success, `undefined` on ENOENT, and rethrows every other error. -/
def statOrUndefined (w : World) (p : NodePath) : Except JsErr (Option StatKind) :=
  match w.stat p with
  | .file => .ok (some .file)
  | .dir => .ok (some .dir)
  | .enoent => .ok none
  | .otherErr => .error .ioError

/-- `loadPackageDotJSON` from `src/lib/appendJsExtension.ts`: reads
`<packageDirectory>/package.json`; a `JSON.parse` failure yields
`'invalid'`; the outer catch-all turns ANY `readFile` rejection
(ENOENT or not) into `undefined`. -/
def loadPackageDotJSON (w : World) (packageDirectory : NodePath) : PkgJsonResult :=
  match w.readPkgFile (pathJoin packageDirectory "package.json") with
  | .okParse (some j) => .parsed j
  | .okParse none => .invalid
  | .notFound => .absent
  | .ioFail => .absent

/-- `hasOwnProperty` from `src/lib/util.ts`, i.e.
`Object.prototype.hasOwnProperty.call(obj, prop)` on a `JSON.parse`
result: throws a `TypeError` on `null`, reports key membership on an
object, and is `false` on the remaining values for the only property
name the code passes (`"exports"`, which is not an own property of
Boolean/Number/String wrappers nor a valid array index). -/
def hasOwnProperty (v : Json) (prop : String) : Except JsErr Bool :=
  match v with
  | .null => .error .typeError
  | .obj fields => .ok (fields.any (fun f => f.1 == prop))
  | _ => .ok false

/-- Whether a JSON value is an object declaring the key `key` (the
spec's "manifest declares an exports key"). -/
def jsonHasKey (v : Json) (key : String) : Bool :=
  match v with
  | .obj fields => fields.any (fun f => f.1 == key)
  | _ => false

/-- `isProcessable` from `src/processFile.ts`. -/
def isProcessable (p : String) : Bool := strEndsWith p ".js" || strEndsWith p ".ts"

/-- The candidate path probed by `findPackageDirectory` at one directory
level: `path.join(dir, 'node_modules', packageName)`. -/
def fpdCandidate (dir : NodePath) (packageName : String) : NodePath :=
  pathJoin (pathJoin dir "node_modules") packageName

/-- Termination measure for the parent-directory walk: number of
segments, plus one when a trailing slash still has to be shed. -/
def npMeasure (p : NodePath) : Nat := p.segs.length + (if p.trailingSlash then 1 else 0)

theorem npMeasure_dirname_lt (d : NodePath) (h : pathDirname d ≠ d) :
    npMeasure (pathDirname d) < npMeasure d := by
  rcases d with ⟨a, segs, ts⟩
  cases segs with
  | nil =>
    cases ts with
    | false => simp [pathDirname] at h
    | true => simp [npMeasure, pathDirname]
  | cons s rest =>
    simp only [npMeasure, pathDirname, List.length_dropLast, List.length_cons]
    cases ts
    · simp
    · simp
      omega

/-- `findPackageDirectory` from `src/lib/appendJsExtension.ts`: probe
`<dir>/node_modules/<packageName>`; if anything exists there return that
path, otherwise recurse on the parent directory, stopping (with
`undefined`) when the parent equals the current directory, i.e. at the
filesystem root. -/
def findPackageDirectory (w : World) (directoryOfImportingFile : NodePath)
    (packageName : String) : Except JsErr (Option NodePath) :=
  match statOrUndefined w (fpdCandidate directoryOfImportingFile packageName) with
  | .error e => .error e
  | .ok (some _) => .ok (some (fpdCandidate directoryOfImportingFile packageName))
  | .ok none =>
    if _h : pathDirname directoryOfImportingFile = directoryOfImportingFile then .ok none
    else findPackageDirectory w (pathDirname directoryOfImportingFile) packageName
termination_by npMeasure directoryOfImportingFile
decreasing_by exact npMeasure_dirname_lt directoryOfImportingFile _h

/-- Fuel-indexed version of `findPackageDirectory`, structurally
recursive on the fuel; used to witness that the recursion of
`findPackageDirectory` terminates within an explicit bound. -/
def findPackageDirectoryF (w : World) (packageName : String) :
    Nat → NodePath → Except JsErr (Option NodePath)
  | 0, _ => .ok none
  | fuel + 1, dir =>
    match statOrUndefined w (fpdCandidate dir packageName) with
    | .error e => .error e
    | .ok (some _) => .ok (some (fpdCandidate dir packageName))
    | .ok none =>
      if pathDirname dir = dir then .ok none
      else findPackageDirectoryF w packageName fuel (pathDirname dir)

theorem findPackageDirectory_eq_fuelAux (w : World) (packageName : String) :
    ∀ n dir, npMeasure dir < n →
      findPackageDirectory w dir packageName = findPackageDirectoryF w packageName n dir := by
  intro n
  induction n with
  | zero => intro dir h; omega
  | succ n ih =>
    intro dir _
    rw [findPackageDirectory, findPackageDirectoryF]
    cases statOrUndefined w (fpdCandidate dir packageName) with
    | error e => rfl
    | ok s =>
      cases s with
      | some k => rfl
      | none =>
        by_cases h : pathDirname dir = dir
        · simp [h]
        · simp only [h, if_false, dif_neg h]
          exact ih (pathDirname dir) (by
            have := npMeasure_dirname_lt dir h
            omega)

theorem findPackageDirectory_eq_fuel (w : World) (dir : NodePath) (packageName : String) :
    findPackageDirectory w dir packageName
      = findPackageDirectoryF w packageName (npMeasure dir + 1) dir :=
  findPackageDirectory_eq_fuelAux w packageName (npMeasure dir + 1) dir (by omega)

/-- Per-file context threaded through resolution (`FileMetaData` in
`src/lib/transformFile.ts`); the optional source-map reference is not
consulted by `shouldAppendJsExtension` and is omitted. -/
structure FileMetaData where
  pathname : String
  absolutePathname : String

/-- The CLI options consulted by the resolver (`Options` from
`src/bin.ts`): only the `relative` flag is read. -/
structure Options where
  relative : Bool

/-- Outcome of the `src/`-prefix block of `shouldAppendJsExtension`
(source lines 192-248): either the block returned a final verdict
(`done`), or control falls through to the rest of the function with the
current (possibly reassigned) value of `importSpecifier`. -/
inductive SrcStep
  | done (result : Option String)
  | continueWith (importSpecifier : String)

/-- The `src/`-prefix block of `shouldAppendJsExtension` (source lines
192-248), entered when the specifier starts with `"src/"`.  It trims
`fileMetaData.pathname` to its first `"src/"` occurrence, splices the
specifier onto the matching prefix of `fileMetaData.absolutePathname`,
and then: in `relative` mode rewrites the specifier into a relative one
(returning it if it already ends in `.js`, no probe at all); otherwise
probes `.js`/`.ts`/`.tsx` siblings and the bare directory, exactly like
the relative-specifier case. -/
def srcBranch (w : World) (fileMetaData : FileMetaData) (options : Options)
    (importSpecifier : String) : Except JsErr SrcStep :=
  let pathname0 := fileMetaData.pathname
  let pathname :=
    if !(strStartsWith pathname0 "src/") && strContainsSub pathname0 "src/"
    then strDropBefore pathname0 "src/"
    else pathname0
  let absolutePathnameTo :=
    strTake fileMetaData.absolutePathname
      (strLength fileMetaData.absolutePathname - strLength pathname) ++ importSpecifier
  if options.relative then
    let rel0 := pathRelative w.cwd (pathDirname (parsePath fileMetaData.absolutePathname))
      (parsePath absolutePathnameTo)
    let rel :=
      if !(strStartsWith rel0 "./") && !(strStartsWith rel0 "../")
      then "./" ++ rel0 else rel0
    if strEndsWith rel ".js" then .ok (.done (some rel))
    else .ok (.continueWith rel)
  else
    match statOrUndefined w (parsePath (absolutePathnameTo ++ ".js")) with
    | .error e => .error e
    | .ok s1 =>
      if s1 = some .file then .ok (.done (some (importSpecifier ++ ".js")))
      else
        match statOrUndefined w (parsePath (absolutePathnameTo ++ ".ts")) with
        | .error e => .error e
        | .ok s2 =>
          if s2 = some .file then .ok (.done (some (importSpecifier ++ ".js")))
          else
            match statOrUndefined w (parsePath (absolutePathnameTo ++ ".tsx")) with
            | .error e => .error e
            | .ok s3 =>
              if s3 = some .file then .ok (.done (some (importSpecifier ++ ".js")))
              else
                match statOrUndefined w (parsePath absolutePathnameTo) with
                | .error e => .error e
                | .ok s4 =>
                  if s4 = some .dir then
                    if strEndsWith importSpecifier "/"
                    then .ok (.done (some (importSpecifier ++ "index.js")))
                    else .ok (.done (some (importSpecifier ++ "/index.js")))
                  else .ok (.continueWith importSpecifier)

/-- The string whose extension-suffixed forms the relative branch probes:
the specifier itself when `path.isAbsolute(importSpecifier)` (posix: it
starts with `/`), otherwise
`path.join(importingFileDirectory, importSpecifier)`. -/
def resolvedWithoutExt (importingFileDirectory : NodePath) (importSpecifier : String) : String :=
  if strStartsWith importSpecifier "/" then importSpecifier
  else render (pathJoin importingFileDirectory importSpecifier)

/-- The relative/absolute-specifier branch of `shouldAppendJsExtension`
(source lines 250-293): probe `<target>.js`, `<target>.ts`,
`<target>.tsx` for a regular file (each probe's textual path is the
resolved string with the extension appended), then the bare target for a
directory; rewrite accordingly, else no change. -/
def resolveRelative (w : World) (importingFileDirectory : NodePath)
    (importSpecifier : String) : Except JsErr (Option String) :=
  let resolvedStr := resolvedWithoutExt importingFileDirectory importSpecifier
  match statOrUndefined w (parsePath (resolvedStr ++ ".js")) with
  | .error e => .error e
  | .ok s1 =>
    if s1 = some .file then .ok (some (importSpecifier ++ ".js"))
    else
      match statOrUndefined w (parsePath (resolvedStr ++ ".ts")) with
      | .error e => .error e
      | .ok s2 =>
        if s2 = some .file then .ok (some (importSpecifier ++ ".js"))
        else
          match statOrUndefined w (parsePath (resolvedStr ++ ".tsx")) with
          | .error e => .error e
          | .ok s3 =>
            if s3 = some .file then .ok (some (importSpecifier ++ ".js"))
            else
              match statOrUndefined w (parsePath resolvedStr) with
              | .error e => .error e
              | .ok s4 =>
                if s4 = some .dir then
                  if strEndsWith importSpecifier "/"
                  then .ok (some (importSpecifier ++ "index.js"))
                  else .ok (some (importSpecifier ++ "/index.js"))
                else .ok none

/-- The bare-subpath branch of `shouldAppendJsExtension` (source lines
295-342).  Note that `importSpecifierParts` was computed by splitting the
ORIGINAL specifier (source line 188), its head becoming the package name
and the rest the sub-path; the package directory is searched with
`findPackageDirectory`; a parsed manifest is tested for an own
`"exports"` property (which throws on `null`); finally
`<packageDirectory>/<subPath>.js` is probed as a file. -/
def resolveBareSubpath (w : World) (importingFileDirectory : NodePath)
    (importSpecifierParts : List String) (importSpecifier : String) :
    Except JsErr (Option String) :=
  match importSpecifierParts with
  | [] => .ok none
  | packageName :: subPathParts =>
    let subPath := joinWith "/" ("." :: subPathParts)
    match findPackageDirectory w importingFileDirectory packageName with
    | .error e => .error e
    | .ok none => .ok none
    | .ok (some packageDirectory) =>
      let pjson := loadPackageDotJSON w packageDirectory
      let hasExportsE : Except JsErr Bool :=
        match pjson with
        | .parsed j => hasOwnProperty j "exports"
        | _ => .ok false
      match hasExportsE with
      | .error e => .error e
      | .ok true => .ok none
      | .ok false =>
        let resolvedSpecifierPathname :=
          parsePath (render (pathJoin packageDirectory subPath) ++ ".js")
        match statOrUndefined w resolvedSpecifierPathname with
        | .error e => .error e
        | .ok s =>
          if s = some .file then .ok (some (importSpecifier ++ ".js"))
          else .ok none

/-- The tail of `shouldAppendJsExtension` after the `src/` block: the
relative/absolute branch (a specifier starting with `./`, `../`, or an
absolute one), then the `/^\w/` bare-specifier test with its sub-path
case, and the final `return false`. -/
def resolveTail (w : World) (importingFileDirectory : NodePath)
    (importSpecifierParts : List String) (importSpecifier : String) :
    Except JsErr (Option String) :=
  if strStartsWith importSpecifier "./" || strStartsWith importSpecifier "../"
      || strStartsWith importSpecifier "/" then
    resolveRelative w importingFileDirectory importSpecifier
  else if startsWithWordChar importSpecifier then
    if strContainsSub importSpecifier "/" then
      resolveBareSubpath w importingFileDirectory importSpecifierParts importSpecifier
    else .ok none
  else .ok none

/-- `shouldAppendJsExtension` from `src/lib/appendJsExtension.ts`:
verdict `.ok none` models `false` (no change), `.ok (some s)` models the
replacement specifier `s`, `.error e` a thrown exception. -/
def shouldAppendJsExtension (w : World) (importingFilePathname importSpecifier : String)
    (fileMetaData : FileMetaData) (options : Options) : Except JsErr (Option String) :=
  if !(isProcessable importingFilePathname) then .ok none
  else
    let importSpecifierParts := splitSlash importSpecifier
    let importingFileDirectory := pathDirname (parsePath importingFilePathname)
    match
      (if strStartsWith importSpecifier "src/"
       then srcBranch w fileMetaData options importSpecifier
       else .ok (.continueWith importSpecifier)) with
    | .error e => .error e
    | .ok (.done r) => .ok r
    | .ok (.continueWith spec2) =>
      resolveTail w importingFileDirectory importSpecifierParts spec2

theorem shouldAppend_not_processable (w : World) (p spec : String) (md : FileMetaData)
    (o : Options) (h : isProcessable p = false) :
    shouldAppendJsExtension w p spec md o = .ok none := by
  simp [shouldAppendJsExtension, h]

theorem shouldAppend_nonsrc (w : World) (p spec : String) (md : FileMetaData) (o : Options)
    (hproc : isProcessable p = true) (hsrc : strStartsWith spec "src/" = false) :
    shouldAppendJsExtension w p spec md o
      = resolveTail w (pathDirname (parsePath p)) (splitSlash spec) spec := by
  simp [shouldAppendJsExtension, hproc, hsrc]

theorem resolveTail_rel (w : World) (dir : NodePath) (parts : List String) (spec : String)
    (hrel : (strStartsWith spec "./" || strStartsWith spec "../"
      || strStartsWith spec "/") = true) :
    resolveTail w dir parts spec = resolveRelative w dir spec := by
  simp [resolveTail, hrel]

theorem resolveTail_bare (w : World) (dir : NodePath) (parts : List String) (spec : String)
    (hrel : (strStartsWith spec "./" || strStartsWith spec "../"
      || strStartsWith spec "/") = false)
    (hword : startsWithWordChar spec = true) (hslash : strContainsSub spec "/" = true) :
    resolveTail w dir parts spec = resolveBareSubpath w dir parts spec := by
  simp [resolveTail, hrel, hword, hslash]

theorem resolveTail_nonword (w : World) (dir : NodePath) (parts : List String) (spec : String)
    (hrel : (strStartsWith spec "./" || strStartsWith spec "../"
      || strStartsWith spec "/") = false)
    (hword : startsWithWordChar spec = false) :
    resolveTail w dir parts spec = .ok none := by
  simp [resolveTail, hrel, hword]

/-- The path probed by the relative/absolute branch for extension `ext`
on behalf of importing file `p` and specifier `spec`. -/
def relProbe (p spec ext : String) : NodePath :=
  parsePath (resolvedWithoutExt (pathDirname (parsePath p)) spec ++ ext)

/-- The bare (extensionless) target path of the relative/absolute branch. -/
def relTarget (p spec : String) : NodePath :=
  parsePath (resolvedWithoutExt (pathDirname (parsePath p)) spec)

theorem resolveRelative_js (w : World) (dir : NodePath) (spec : String)
    (h1 : statOrUndefined w (parsePath (resolvedWithoutExt dir spec ++ ".js"))
      = .ok (some .file)) :
    resolveRelative w dir spec = .ok (some (spec ++ ".js")) := by
  simp [resolveRelative, h1]

theorem resolveRelative_ts (w : World) (dir : NodePath) (spec : String) (r1 : Option StatKind)
    (h1 : statOrUndefined w (parsePath (resolvedWithoutExt dir spec ++ ".js")) = .ok r1)
    (hn1 : r1 ≠ some .file)
    (h2 : statOrUndefined w (parsePath (resolvedWithoutExt dir spec ++ ".ts"))
      = .ok (some .file)) :
    resolveRelative w dir spec = .ok (some (spec ++ ".js")) := by
  simp [resolveRelative, h1, hn1, h2]

theorem resolveRelative_tsx (w : World) (dir : NodePath) (spec : String)
    (r1 r2 : Option StatKind)
    (h1 : statOrUndefined w (parsePath (resolvedWithoutExt dir spec ++ ".js")) = .ok r1)
    (hn1 : r1 ≠ some .file)
    (h2 : statOrUndefined w (parsePath (resolvedWithoutExt dir spec ++ ".ts")) = .ok r2)
    (hn2 : r2 ≠ some .file)
    (h3 : statOrUndefined w (parsePath (resolvedWithoutExt dir spec ++ ".tsx"))
      = .ok (some .file)) :
    resolveRelative w dir spec = .ok (some (spec ++ ".js")) := by
  simp [resolveRelative, h1, hn1, h2, hn2, h3]

theorem resolveRelative_dir (w : World) (dir : NodePath) (spec : String)
    (r1 r2 r3 : Option StatKind)
    (h1 : statOrUndefined w (parsePath (resolvedWithoutExt dir spec ++ ".js")) = .ok r1)
    (hn1 : r1 ≠ some .file)
    (h2 : statOrUndefined w (parsePath (resolvedWithoutExt dir spec ++ ".ts")) = .ok r2)
    (hn2 : r2 ≠ some .file)
    (h3 : statOrUndefined w (parsePath (resolvedWithoutExt dir spec ++ ".tsx")) = .ok r3)
    (hn3 : r3 ≠ some .file)
    (h4 : statOrUndefined w (parsePath (resolvedWithoutExt dir spec)) = .ok (some .dir)) :
    resolveRelative w dir spec
      = .ok (some (spec ++ (if strEndsWith spec "/" then "index.js" else "/index.js"))) := by
  simp only [resolveRelative, h1, h2, h3, h4]
  rw [if_neg hn1, if_neg hn2, if_neg hn3]
  by_cases he : strEndsWith spec "/" = true <;> simp [he]

theorem resolveRelative_some (w : World) (dir : NodePath) (spec r : String)
    (h : resolveRelative w dir spec = .ok (some r)) :
    (statOrUndefined w (parsePath (resolvedWithoutExt dir spec ++ ".js")) = .ok (some .file)
        ∧ r = spec ++ ".js")
    ∨ (statOrUndefined w (parsePath (resolvedWithoutExt dir spec ++ ".ts")) = .ok (some .file)
        ∧ r = spec ++ ".js")
    ∨ (statOrUndefined w (parsePath (resolvedWithoutExt dir spec ++ ".tsx")) = .ok (some .file)
        ∧ r = spec ++ ".js")
    ∨ (statOrUndefined w (parsePath (resolvedWithoutExt dir spec)) = .ok (some .dir)
        ∧ r = spec ++ (if strEndsWith spec "/" then "index.js" else "/index.js")) := by
  simp only [resolveRelative] at h
  rcases e1 : statOrUndefined w (parsePath (resolvedWithoutExt dir spec ++ ".js"))
    with e | s1 <;> rw [e1] at h <;> dsimp only at h
  · exact absurd h (by simp)
  by_cases f1 : s1 = some StatKind.file
  · subst f1
    simp at h
    exact Or.inl ⟨rfl, h.symm⟩
  rw [if_neg f1] at h
  rcases e2 : statOrUndefined w (parsePath (resolvedWithoutExt dir spec ++ ".ts"))
    with e | s2 <;> rw [e2] at h <;> dsimp only at h
  · exact absurd h (by simp)
  by_cases f2 : s2 = some StatKind.file
  · subst f2
    simp at h
    exact Or.inr (Or.inl ⟨rfl, h.symm⟩)
  rw [if_neg f2] at h
  rcases e3 : statOrUndefined w (parsePath (resolvedWithoutExt dir spec ++ ".tsx"))
    with e | s3 <;> rw [e3] at h <;> dsimp only at h
  · exact absurd h (by simp)
  by_cases f3 : s3 = some StatKind.file
  · subst f3
    simp at h
    exact Or.inr (Or.inr (Or.inl ⟨rfl, h.symm⟩))
  rw [if_neg f3] at h
  rcases e4 : statOrUndefined w (parsePath (resolvedWithoutExt dir spec))
    with e | s4 <;> rw [e4] at h <;> dsimp only at h
  · exact absurd h (by simp)
  by_cases f4 : s4 = some StatKind.dir
  · subst f4
    refine Or.inr (Or.inr (Or.inr ⟨rfl, ?_⟩))
    by_cases he : strEndsWith spec "/" = true <;> simp [he] at h ⊢ <;> exact h.symm
  · rw [if_neg f4] at h
    exact absurd h (by simp)

/-- Stat table of a test world: the listed paths are regular files resp.
directories, anything else reports ENOENT. -/
def mkStat (files dirs : List NodePath) : NodePath → StatResult :=
  fun p => if p ∈ files then .file else if p ∈ dirs then .dir else .enoent

/-- Shared test fixture: metadata of an importing file `a.ts`. -/
def mdA : FileMetaData := ⟨"a.ts", "/proj/a.ts"⟩

/-- Shared test fixture: options with the `relative` mode disabled. -/
def optNoRel : Options := ⟨false⟩

/-- Shared test fixture: working directory `/proj`. -/
def cwdProj : NodePath := ⟨true, ["proj"], false⟩

/-- Shared test fixture: no `package.json` exists anywhere. -/
def noPkg : NodePath → ReadResult := fun _ => .notFound

/-- C9: for every importing-file pathname ending in neither `.js` nor
`.ts`, `shouldAppendJsExtension` returns `false` (no change) for every
specifier, file metadata, options value, and filesystem state. -/
theorem c9_unprocessable_no_change (w : World) (p spec : String) (md : FileMetaData)
    (o : Options) (h1 : strEndsWith p ".js" = false) (h2 : strEndsWith p ".ts" = false) :
    shouldAppendJsExtension w p spec md o = .ok none :=
  shouldAppend_not_processable w p spec md o (by simp [isProcessable, h1, h2])

theorem c9_witness :
    shouldAppendJsExtension ⟨fun _ => .file, noPkg, cwdProj⟩ "a.tsx" "./x" mdA optNoRel
      = .ok none :=
  c9_unprocessable_no_change ⟨fun _ => .file, noPkg, cwdProj⟩ "a.tsx" "./x" mdA optNoRel
    (by decide) (by decide)

/-- C3: for a relative or filesystem-absolute specifier, the resolver
probes `<target>.js`, `<target>.ts`, `<target>.tsx` in that order, and
the first probe finding a regular file yields `Rewrite(spec + ".js")` -
appending `.js` even when the file discovered was the `.ts` or `.tsx`
sibling. -/
theorem c3_probe_order (w : World) (p spec : String) (md : FileMetaData) (o : Options)
    (hproc : isProcessable p = true)
    (hrel : (strStartsWith spec "./" || strStartsWith spec "../"
      || strStartsWith spec "/") = true)
    (hsrc : strStartsWith spec "src/" = false) :
    (statOrUndefined w (relProbe p spec ".js") = .ok (some .file) →
      shouldAppendJsExtension w p spec md o = .ok (some (spec ++ ".js")))
    ∧ (∀ r1, statOrUndefined w (relProbe p spec ".js") = .ok r1 → r1 ≠ some .file →
        statOrUndefined w (relProbe p spec ".ts") = .ok (some .file) →
        shouldAppendJsExtension w p spec md o = .ok (some (spec ++ ".js")))
    ∧ (∀ r1 r2, statOrUndefined w (relProbe p spec ".js") = .ok r1 → r1 ≠ some .file →
        statOrUndefined w (relProbe p spec ".ts") = .ok r2 → r2 ≠ some .file →
        statOrUndefined w (relProbe p spec ".tsx") = .ok (some .file) →
        shouldAppendJsExtension w p spec md o = .ok (some (spec ++ ".js"))) := by
  refine ⟨fun h1 => ?_, fun r1 h1 hn1 h2 => ?_, fun r1 r2 h1 hn1 h2 hn2 h3 => ?_⟩ <;>
    rw [shouldAppend_nonsrc w p spec md o hproc hsrc,
      resolveTail_rel w (pathDirname (parsePath p)) (splitSlash spec) spec hrel]
  · exact resolveRelative_js w (pathDirname (parsePath p)) spec h1
  · exact resolveRelative_ts w (pathDirname (parsePath p)) spec r1 h1 hn1 h2
  · exact resolveRelative_tsx w (pathDirname (parsePath p)) spec r1 r2 h1 hn1 h2 hn2 h3

/-- Test world for the C3 witness: only `util.ts` exists. -/
def wC3 : World := ⟨mkStat [⟨false, ["util.ts"], false⟩] [], noPkg, cwdProj⟩

theorem c3_witness :
    shouldAppendJsExtension wC3 "a.ts" "./util" mdA optNoRel = .ok (some "./util.js") :=
  (c3_probe_order wC3 "a.ts" "./util" mdA optNoRel (by decide) (by decide) (by decide)).2.1
    none rfl (by decide) rfl

/-- Test world for the C6 witness: `widgets` is a directory (probed with
a trailing slash by the specifier below), nothing else exists. -/
def wC6 : World := ⟨mkStat [] [⟨false, ["widgets"], true⟩, ⟨false, ["widgets"], false⟩],
  noPkg, cwdProj⟩

/-- C6: for a relative specifier where none of `<target>.js`,
`<target>.ts`, `<target>.tsx` is a regular file but the target is an
existing directory, the verdict is `Rewrite(spec + "/index.js")`, or
`Rewrite(spec + "index.js")` when the specifier already ends in a path
separator, so the separator is never doubled. -/
theorem c6_directory_fallback (w : World) (p spec : String) (md : FileMetaData) (o : Options)
    (hproc : isProcessable p = true)
    (hrel : (strStartsWith spec "./" || strStartsWith spec "../"
      || strStartsWith spec "/") = true)
    (hsrc : strStartsWith spec "src/" = false) (r1 r2 r3 : Option StatKind)
    (h1 : statOrUndefined w (relProbe p spec ".js") = .ok r1) (hn1 : r1 ≠ some .file)
    (h2 : statOrUndefined w (relProbe p spec ".ts") = .ok r2) (hn2 : r2 ≠ some .file)
    (h3 : statOrUndefined w (relProbe p spec ".tsx") = .ok r3) (hn3 : r3 ≠ some .file)
    (h4 : statOrUndefined w (relTarget p spec) = .ok (some .dir)) :
    shouldAppendJsExtension w p spec md o
      = .ok (some (spec ++ (if strEndsWith spec "/" then "index.js" else "/index.js"))) := by
  rw [shouldAppend_nonsrc w p spec md o hproc hsrc,
    resolveTail_rel w (pathDirname (parsePath p)) (splitSlash spec) spec hrel]
  exact resolveRelative_dir w (pathDirname (parsePath p)) spec r1 r2 r3 h1 hn1 h2 hn2 h3 hn3 h4

theorem c6_witness :
    shouldAppendJsExtension wC6 "a.ts" "./widgets/" mdA optNoRel
      = .ok (some "./widgets/index.js") := by
  have h := c6_directory_fallback wC6 "a.ts" "./widgets/" mdA optNoRel (by decide) (by decide)
    (by decide) none none none rfl (by decide) rfl (by decide) rfl (by decide) rfl
  exact h

/-- Test world for C4: both `foo.js` and `foo.js.js` are regular files. -/
def wC4 : World :=
  ⟨mkStat [⟨false, ["foo.js"], false⟩, ⟨false, ["foo.js.js"], false⟩] [], noPkg, cwdProj⟩

/-- C4 (code defect evidence): the specifier `./foo.js` already ends in
`.js` and points at the existing file `foo.js`, yet because `foo.js.js`
also exists the resolver rewrites it to `./foo.js.js`, changing which
file is loaded - contradicting the claimed `NoChange` for already-correct
specifiers (and the function's own stated guiding principle). -/
theorem c4_already_correct_rewritten :
    shouldAppendJsExtension wC4 "a.ts" "./foo.js" mdA optNoRel = .ok (some "./foo.js.js")
    ∧ wC4.stat (parsePath "foo.js") = .file
    ∧ strEndsWith "./foo.js" ".js" = true :=
  ⟨rfl, rfl, rfl⟩

/-- Test world for C10: package `colors` is located under
`node_modules`, and its `package.json` contains exactly the JSON text
`null`, whose `JSON.parse` yields the non-object value `null`. -/
def wC10 : World :=
  ⟨mkStat [⟨false, ["node_modules", "colors", "safe.js"], false⟩]
      [⟨false, ["node_modules", "colors"], false⟩],
   fun p => if p = ⟨false, ["node_modules", "colors", "package.json"], false⟩
            then .okParse (some .null) else .notFound,
   cwdProj⟩

/-- C10: for a bare sub-path specifier whose located package directory
holds a manifest whose entire content is the JSON text `null`, the
resolver throws (a `TypeError` from
`Object.prototype.hasOwnProperty.call(null, 'exports')`) instead of
returning a verdict. -/
theorem c10_null_manifest_throws :
    shouldAppendJsExtension wC10 "a.ts" "colors/safe" mdA optNoRel = .error .typeError
    ∧ wC10.readPkgFile ⟨false, ["node_modules", "colors", "package.json"], false⟩
      = .okParse (some .null) := by
  constructor
  · simp only [shouldAppendJsExtension, resolveTail, resolveBareSubpath,
      findPackageDirectory_eq_fuel]
    rfl
  · rfl

/-- Test world for C1: `widgets` is a directory but `widgets/index.js`
does not exist. -/
def wC1 : World := ⟨mkStat [] [⟨false, ["widgets"], false⟩], noPkg, cwdProj⟩

/-- C1 counterexample: the resolver rewrites `./widgets` to
`./widgets/index.js` after confirming only that `widgets` is a
directory, although the replacement target `widgets/index.js` does not
exist on disk (its stat reports ENOENT). -/
theorem c1_counterexample :
    shouldAppendJsExtension wC1 "a.ts" "./widgets" mdA optNoRel
      = .ok (some "./widgets/index.js")
    ∧ wC1.stat (parsePath "widgets/index.js") = .enoent :=
  ⟨rfl, rfl⟩

/-- C1 (amended): for a relative or filesystem-absolute specifier that
does not carry the `src/` alias prefix, a rewrite is emitted only after a
probe confirmed a closely related path - the `.js`, `.ts` or `.tsx`
sibling as a regular file, or the bare target as a directory; the literal
replacement target itself (the `.js` emission of a discovered
`.ts`/`.tsx` source, or `<target>/index.js`) is not itself confirmed to
exist. -/
theorem c1_amended_probe_confirmation (w : World) (p spec r : String) (md : FileMetaData)
    (o : Options)
    (hrel : (strStartsWith spec "./" || strStartsWith spec "../"
      || strStartsWith spec "/") = true)
    (hsrc : strStartsWith spec "src/" = false)
    (hres : shouldAppendJsExtension w p spec md o = .ok (some r)) :
    (statOrUndefined w (relProbe p spec ".js") = .ok (some .file) ∧ r = spec ++ ".js")
    ∨ (statOrUndefined w (relProbe p spec ".ts") = .ok (some .file) ∧ r = spec ++ ".js")
    ∨ (statOrUndefined w (relProbe p spec ".tsx") = .ok (some .file) ∧ r = spec ++ ".js")
    ∨ (statOrUndefined w (relTarget p spec) = .ok (some .dir)
        ∧ r = spec ++ (if strEndsWith spec "/" then "index.js" else "/index.js")) := by
  by_cases hproc : isProcessable p = true
  · rw [shouldAppend_nonsrc w p spec md o hproc hsrc,
      resolveTail_rel w (pathDirname (parsePath p)) (splitSlash spec) spec hrel] at hres
    exact resolveRelative_some w (pathDirname (parsePath p)) spec r hres
  · rw [shouldAppend_not_processable w p spec md o (by simpa using hproc)] at hres
    simp at hres

theorem c1_witness :
    (statOrUndefined wC1 (relProbe "a.ts" "./widgets" ".js") = .ok (some .file)
        ∧ "./widgets/index.js" = "./widgets" ++ ".js")
    ∨ (statOrUndefined wC1 (relProbe "a.ts" "./widgets" ".ts") = .ok (some .file)
        ∧ "./widgets/index.js" = "./widgets" ++ ".js")
    ∨ (statOrUndefined wC1 (relProbe "a.ts" "./widgets" ".tsx") = .ok (some .file)
        ∧ "./widgets/index.js" = "./widgets" ++ ".js")
    ∨ (statOrUndefined wC1 (relTarget "a.ts" "./widgets") = .ok (some .dir)
        ∧ "./widgets/index.js" = "./widgets"
            ++ (if strEndsWith "./widgets" "/" then "index.js" else "/index.js")) :=
  c1_amended_probe_confirmation wC1 "a.ts" "./widgets" "./widgets/index.js" mdA optNoRel
    (by decide) (by decide) rfl

/-- The scoped-name rule exactly as the specification words it (stated
for comparison with the code): a specifier beginning with `@` takes its
first two path segments as the package name, otherwise the first path
segment alone. -/
def specScopedPackageName (spec : String) : String :=
  match splitSlash spec with
  | a :: b :: _ => if strStartsWith spec "@" then a ++ "/" ++ b else a
  | a :: [] => a
  | [] => ""

/-- Test world for C2: the scoped package directory
`node_modules/@scope/pkg` exists, has no manifest, and contains
`sub.js`. -/
def wC2 : World :=
  ⟨mkStat [⟨false, ["node_modules", "@scope", "pkg", "sub.js"], false⟩]
      [⟨false, ["node_modules", "@scope", "pkg"], false⟩], noPkg, cwdProj⟩

/-- C2 counterexample: for the scoped bare sub-path specifier
`@scope/pkg/sub` the claim's scoped-name split gives package name
`@scope/pkg`; that package's directory exists, its manifest is absent,
and the probed sub-path target `sub.js` exists as a regular file - so
resolution computed from the claimed split would rewrite - yet the
resolver returns no change: the `/^\w/` test rejects `@` and no split,
lookup or probe ever happens. -/
theorem c2_counterexample :
    shouldAppendJsExtension wC2 "a.ts" "@scope/pkg/sub" mdA optNoRel = .ok none
    ∧ specScopedPackageName "@scope/pkg/sub" = "@scope/pkg"
    ∧ findPackageDirectory wC2 (pathDirname (parsePath "a.ts")) "@scope/pkg"
      = .ok (some ⟨false, ["node_modules", "@scope", "pkg"], false⟩)
    ∧ wC2.stat ⟨false, ["node_modules", "@scope", "pkg", "sub.js"], false⟩ = .file := by
  refine ⟨rfl, rfl, ?_, rfl⟩
  rw [findPackageDirectory_eq_fuel]
  rfl

theorem startsWith_at_not_word (spec : String) (h : strStartsWith spec "@" = true) :
    startsWithWordChar spec = false := by
  rcases spec with ⟨data⟩
  cases data with
  | nil => exact absurd h (by decide)
  | cons c cs =>
    simp only [strStartsWith] at h
    simp only [List.isPrefixOf, Bool.and_eq_true, beq_iff_eq] at h
    obtain ⟨hc, -⟩ := h
    subst hc
    rfl

theorem resolveBareSubpath_hit (w : World) (dir : NodePath) (parts : List String)
    (spec packageName : String) (subPathParts : List String) (pd : NodePath)
    (hparts : parts = packageName :: subPathParts)
    (hf : findPackageDirectory w dir packageName = .ok (some pd))
    (hm : loadPackageDotJSON w pd = .absent)
    (hs : statOrUndefined w
        (parsePath (render (pathJoin pd (joinWith "/" ("." :: subPathParts))) ++ ".js"))
      = .ok (some .file)) :
    resolveBareSubpath w dir parts spec = .ok (some (spec ++ ".js")) := by
  subst hparts
  simp [resolveBareSubpath, hf, hm, hs]

/-- C2 (amended): a bare sub-path specifier beginning with `@` never
reaches the split at all - the resolver answers `NoChange` for it;
for a bare sub-path specifier beginning with a word character the
package name is the FIRST path segment alone, and the directory located
and sub-path probed are computed from that first-segment split. -/
theorem c2_amended_first_segment_split :
    (∀ (w : World) (p spec : String) (md : FileMetaData) (o : Options),
      strStartsWith spec "@" = true →
      (strStartsWith spec "./" || strStartsWith spec "../"
        || strStartsWith spec "/") = false →
      strStartsWith spec "src/" = false →
      shouldAppendJsExtension w p spec md o = .ok none)
    ∧ (∀ (w : World) (p spec : String) (md : FileMetaData) (o : Options)
        (packageName : String) (subPathParts : List String) (pd : NodePath),
      isProcessable p = true →
      (strStartsWith spec "./" || strStartsWith spec "../"
        || strStartsWith spec "/") = false →
      strStartsWith spec "src/" = false →
      startsWithWordChar spec = true →
      strContainsSub spec "/" = true →
      splitSlash spec = packageName :: subPathParts →
      findPackageDirectory w (pathDirname (parsePath p)) packageName = .ok (some pd) →
      loadPackageDotJSON w pd = .absent →
      statOrUndefined w
          (parsePath (render (pathJoin pd (joinWith "/" ("." :: subPathParts))) ++ ".js"))
        = .ok (some .file) →
      shouldAppendJsExtension w p spec md o = .ok (some (spec ++ ".js"))) := by
  constructor
  · intro w p spec md o hat hnotrel hsrc
    by_cases hproc : isProcessable p = true
    · rw [shouldAppend_nonsrc w p spec md o hproc hsrc]
      exact resolveTail_nonword w (pathDirname (parsePath p)) (splitSlash spec) spec hnotrel
        (startsWith_at_not_word spec hat)
    · exact shouldAppend_not_processable w p spec md o (by simpa using hproc)
  · intro w p spec md o packageName subPathParts pd hproc hnotrel hsrc hword hslash hsplit hf hm hs
    rw [shouldAppend_nonsrc w p spec md o hproc hsrc,
      resolveTail_bare w (pathDirname (parsePath p)) (splitSlash spec) spec hnotrel hword hslash]
    exact resolveBareSubpath_hit w (pathDirname (parsePath p)) (splitSlash spec) spec
      packageName subPathParts pd hsplit hf hm hs

/-- Test world shared by the C2 and C7 witnesses: package `colors`
exists with `safe.js` inside and no manifest anywhere. -/
def wColors : World :=
  ⟨mkStat [⟨false, ["node_modules", "colors", "safe.js"], false⟩]
      [⟨false, ["node_modules", "colors"], false⟩], noPkg, cwdProj⟩

theorem c2_witness :
    shouldAppendJsExtension wC2 "a.ts" "@x/y" mdA optNoRel = .ok none
    ∧ shouldAppendJsExtension wColors "a.ts" "colors/safe" mdA optNoRel
      = .ok (some "colors/safe.js") := by
  constructor
  · exact c2_amended_first_segment_split.1 wC2 "a.ts" "@x/y" mdA optNoRel (by decide)
      (by decide) (by decide)
  · exact c2_amended_first_segment_split.2 wColors "a.ts" "colors/safe" mdA optNoRel
      "colors" ["safe"] ⟨false, ["node_modules", "colors"], false⟩ (by decide) (by decide)
      (by decide) (by decide) (by decide) rfl
      (by rw [findPackageDirectory_eq_fuel]; rfl) rfl rfl

theorem hasOwnProperty_of_hasKey (j : Json) (k : String) (h : jsonHasKey j k = true) :
    hasOwnProperty j k = .ok true := by
  cases j with
  | obj fields =>
    simp only [jsonHasKey] at h
    simp [hasOwnProperty, h]
  | null => simp [jsonHasKey] at h
  | bool b => simp [jsonHasKey] at h
  | num n => simp [jsonHasKey] at h
  | str s => simp [jsonHasKey] at h
  | arr elems => simp [jsonHasKey] at h

theorem resolveBareSubpath_exports (w : World) (dir : NodePath) (parts : List String)
    (spec packageName : String) (subPathParts : List String) (pd : NodePath) (j : Json)
    (hparts : parts = packageName :: subPathParts)
    (hf : findPackageDirectory w dir packageName = .ok (some pd))
    (hm : loadPackageDotJSON w pd = .parsed j)
    (hx : jsonHasKey j "exports" = true) :
    resolveBareSubpath w dir parts spec = .ok none := by
  subst hparts
  simp [resolveBareSubpath, hf, hm, hasOwnProperty_of_hasKey j "exports" hx]

/-- C5: for a bare sub-path specifier whose located package's manifest
parses to an object declaring an `"exports"` key, the resolver yields
`NoChange` - whatever the rest of the filesystem looks like, in
particular even when `<packageDirectory>/<subPath>.js` exists as a
regular file. -/
theorem c5_exports_guard (w : World) (p spec : String) (md : FileMetaData) (o : Options)
    (packageName : String) (subPathParts : List String) (pd : NodePath) (j : Json)
    (hnotrel : (strStartsWith spec "./" || strStartsWith spec "../"
      || strStartsWith spec "/") = false)
    (hsrc : strStartsWith spec "src/" = false)
    (hword : startsWithWordChar spec = true)
    (hslash : strContainsSub spec "/" = true)
    (hsplit : splitSlash spec = packageName :: subPathParts)
    (hf : findPackageDirectory w (pathDirname (parsePath p)) packageName = .ok (some pd))
    (hm : loadPackageDotJSON w pd = .parsed j)
    (hx : jsonHasKey j "exports" = true) :
    shouldAppendJsExtension w p spec md o = .ok none := by
  by_cases hproc : isProcessable p = true
  · rw [shouldAppend_nonsrc w p spec md o hproc hsrc,
      resolveTail_bare w (pathDirname (parsePath p)) (splitSlash spec) spec hnotrel hword hslash]
    exact resolveBareSubpath_exports w (pathDirname (parsePath p)) (splitSlash spec) spec
      packageName subPathParts pd j hsplit hf hm hx
  · exact shouldAppend_not_processable w p spec md o (by simpa using hproc)

/-- Test world for the C5 witness: like `wColors` but the manifest of
`colors` declares an `"exports"` map; `safe.js` still exists. -/
def wC5 : World :=
  ⟨mkStat [⟨false, ["node_modules", "colors", "safe.js"], false⟩]
      [⟨false, ["node_modules", "colors"], false⟩],
   fun p => if p = ⟨false, ["node_modules", "colors", "package.json"], false⟩
            then .okParse (some (.obj [("exports", .str "./lib.js")])) else .notFound,
   cwdProj⟩

theorem c5_witness :
    shouldAppendJsExtension wC5 "a.ts" "colors/safe" mdA optNoRel = .ok none
    ∧ wC5.stat ⟨false, ["node_modules", "colors", "safe.js"], false⟩ = .file := by
  refine ⟨?_, rfl⟩
  exact c5_exports_guard wC5 "a.ts" "colors/safe" mdA optNoRel "colors" ["safe"]
    ⟨false, ["node_modules", "colors"], false⟩ (.obj [("exports", .str "./lib.js")])
    (by decide) (by decide) (by decide) (by decide) rfl
    (by rw [findPackageDirectory_eq_fuel]; rfl) rfl (by decide)

/-- Test world for the C7 counterexample: like `wColors` but every
manifest read fails with a non-ENOENT I/O error (e.g. permission
denied). -/
def wC7 : World :=
  ⟨mkStat [⟨false, ["node_modules", "colors", "safe.js"], false⟩]
      [⟨false, ["node_modules", "colors"], false⟩],
   fun _ => .ioFail, cwdProj⟩

/-- C7 counterexample: when reading `node_modules/colors/package.json`
fails with an error that is NOT file-not-found, `loadPackageDotJSON`
still returns `undefined` (Absent) - its catch-all swallows the error -
and the resolver proceeds to a rewrite instead of propagating a fatal
error. -/
theorem c7_counterexample :
    wC7.readPkgFile (pathJoin ⟨false, ["node_modules", "colors"], false⟩ "package.json")
      = .ioFail
    ∧ loadPackageDotJSON wC7 ⟨false, ["node_modules", "colors"], false⟩ = .absent
    ∧ shouldAppendJsExtension wC7 "a.ts" "colors/safe" mdA optNoRel
      = .ok (some "colors/safe.js") := by
  refine ⟨rfl, rfl, ?_⟩
  simp only [shouldAppendJsExtension, resolveTail, resolveBareSubpath,
    findPackageDirectory_eq_fuel]
  rfl

/-- C7 (amended): `loadPackageDotJSON` never lets any error escape:
a JSON-decode failure yields `Invalid`; a read failure yields `Absent`
whether it is file-not-found or any other I/O error (the catch-all
swallows both); consequently the resolver, instead of treating a
non-ENOENT manifest-read failure as fatal, carries on as if the manifest
were absent and may even rewrite. -/
theorem c7_amended_read_failures :
    (∀ (w : World) (pd : NodePath),
      w.readPkgFile (pathJoin pd "package.json") = .ioFail →
      loadPackageDotJSON w pd = .absent)
    ∧ (∀ (w : World) (pd : NodePath),
      w.readPkgFile (pathJoin pd "package.json") = .notFound →
      loadPackageDotJSON w pd = .absent)
    ∧ (∀ (w : World) (pd : NodePath),
      w.readPkgFile (pathJoin pd "package.json") = .okParse none →
      loadPackageDotJSON w pd = .invalid)
    ∧ (∀ (w : World) (p spec : String) (md : FileMetaData) (o : Options)
        (packageName : String) (subPathParts : List String) (pd : NodePath),
      isProcessable p = true →
      (strStartsWith spec "./" || strStartsWith spec "../"
        || strStartsWith spec "/") = false →
      strStartsWith spec "src/" = false →
      startsWithWordChar spec = true →
      strContainsSub spec "/" = true →
      splitSlash spec = packageName :: subPathParts →
      findPackageDirectory w (pathDirname (parsePath p)) packageName = .ok (some pd) →
      w.readPkgFile (pathJoin pd "package.json") = .ioFail →
      statOrUndefined w
          (parsePath (render (pathJoin pd (joinWith "/" ("." :: subPathParts))) ++ ".js"))
        = .ok (some .file) →
      shouldAppendJsExtension w p spec md o = .ok (some (spec ++ ".js"))) := by
  refine ⟨fun w pd h => by simp [loadPackageDotJSON, h],
    fun w pd h => by simp [loadPackageDotJSON, h],
    fun w pd h => by simp [loadPackageDotJSON, h],
    fun w p spec md o packageName subPathParts pd hproc hnotrel hsrc hword hslash hsplit hf
      hread hs => ?_⟩
  rw [shouldAppend_nonsrc w p spec md o hproc hsrc,
    resolveTail_bare w (pathDirname (parsePath p)) (splitSlash spec) spec hnotrel hword hslash]
  exact resolveBareSubpath_hit w (pathDirname (parsePath p)) (splitSlash spec) spec
    packageName subPathParts pd hsplit hf (by simp [loadPackageDotJSON, hread]) hs

theorem c7_witness :
    loadPackageDotJSON wC7 ⟨false, ["node_modules", "colors", "sub"], false⟩ = .absent
    ∧ shouldAppendJsExtension wC7 "b.ts" "colors/safe" ⟨"b.ts", "/proj/b.ts"⟩ optNoRel
      = .ok (some "colors/safe.js") := by
  constructor
  · exact c7_amended_read_failures.1 wC7 ⟨false, ["node_modules", "colors", "sub"], false⟩ rfl
  · exact c7_amended_read_failures.2.2.2 wC7 "b.ts" "colors/safe" ⟨"b.ts", "/proj/b.ts"⟩
      optNoRel "colors" ["safe"] ⟨false, ["node_modules", "colors"], false⟩
      (by decide) (by decide) (by decide) (by decide) (by decide) rfl
      (by rw [findPackageDirectory_eq_fuel]; rfl) rfl rfl

/-- C8: `findPackageDirectory` terminates on every input - witnessed by
its agreement with the structurally recursive fuel-indexed variant at the
explicit recursion-depth bound `npMeasure dir + 1` - and walks as the
claim describes: if `<dir>/node_modules/<packageName>` exists the
candidate is returned; otherwise, when the parent directory equals the
current one (the filesystem root) the result is NotFound (`none`), and
when it does not the function recurses on the parent. -/
theorem c8_locate_terminates (w : World) (dir : NodePath) (pkg : String) :
    findPackageDirectory w dir pkg = findPackageDirectoryF w pkg (npMeasure dir + 1) dir
    ∧ (∀ k, statOrUndefined w (fpdCandidate dir pkg) = .ok (some k) →
        findPackageDirectory w dir pkg = .ok (some (fpdCandidate dir pkg)))
    ∧ (statOrUndefined w (fpdCandidate dir pkg) = .ok none → pathDirname dir = dir →
        findPackageDirectory w dir pkg = .ok none)
    ∧ (statOrUndefined w (fpdCandidate dir pkg) = .ok none → pathDirname dir ≠ dir →
        findPackageDirectory w dir pkg = findPackageDirectory w (pathDirname dir) pkg) := by
  refine ⟨findPackageDirectory_eq_fuel w dir pkg, fun k hk => ?_, fun h0 hd => ?_,
    fun h0 hd => ?_⟩
  · rw [findPackageDirectory, hk]
  · rw [findPackageDirectory, h0]
    simp [hd]
  · rw [findPackageDirectory, h0]
    simp [hd]

/-- Test world for the C8 witness: only `/a/node_modules/p` exists, one
level above the start directory `/a/b`. -/
def wC8 : World := ⟨mkStat [] [⟨true, ["a", "node_modules", "p"], false⟩], noPkg, cwdProj⟩

theorem c8_witness :
    findPackageDirectory wC8 (parsePath "/a/b") "p"
      = .ok (some ⟨true, ["a", "node_modules", "p"], false⟩)
    ∧ findPackageDirectory wC8 ⟨true, [], false⟩ "q" = .ok none := by
  constructor
  · rw [(c8_locate_terminates wC8 (parsePath "/a/b") "p").1]
    rfl
  · exact (c8_locate_terminates wC8 ⟨true, [], false⟩ "q").2.2.1 rfl rfl
